import Mathlib

/-!
Verification of the batch image processor core
(`python_2025/batch_image_processor/core.py`).

The development is a shallow embedding of `BatchImageProcessor`: Python
strings become `String` (manipulated through structurally recursive
helpers over `List Char`), Python ints become `Int`, Python floats become
`Rat`, keyword arguments become a record of `Option` fields, and every
spot where the code can raise becomes `Except String`.  Behavior of the
external imaging library (Pillow) that the code delegates to — resampling
buffers, rotation, text measurement, compositing, file writes — is kept
abstract in a `PILModel` record of functions; only the parts of the
library contract the code observably relies on (output dimensions of
`resize` and `crop`, the coordinate-order check in `crop`) are pinned.
The contents of the input folder are modelled as a list of directory
entries, each carrying the outcome that opening it would produce.
-/

set_option maxHeartbeats 1000000

/-- Pixel of an RGBA bitmap; the concrete encoding is irrelevant, it only
has to support decidable equality. -/
abbrev Pixel := Nat × Nat × Nat × Nat

/-- Decoded bitmap: width, height, color mode and pixel buffer.  Models a
PIL `Image.Image` object. -/
structure Img where
  width : Nat
  height : Nat
  mode : String
  data : List Pixel
deriving DecidableEq

/-- Python `str.lower` (ASCII behaviour, which is all the code relies on). -/
def pyLower (s : String) : String :=
  String.mk (s.data.map Char.toLower)

/-- Python `int(...)` applied to a rational: truncation toward zero. -/
def pyInt (q : ℚ) : ℤ :=
  if q < 0 then -Int.floor (-q) else Int.floor q

/-- Index of the last occurrence of a character in a character list. -/
def lastIdxOfChar (c : Char) : List Char → Option Nat
  | [] => none
  | x :: xs =>
    match lastIdxOfChar c xs with
    | some i => some (i + 1)
    | none => if x = c then some 0 else none

/-- Python `os.path.basename`: everything after the last slash. -/
def basename (p : String) : String :=
  String.mk ((p.data.reverse.takeWhile (fun c => c ≠ '/')).reverse)

/-- Python `os.path.splitext`, following the CPython algorithm: split at
the last dot provided it lies after the last slash and the leading
characters of the file name are not all dots. -/
def splitext (p : String) : String × String :=
  let cs := p.data
  match lastIdxOfChar '.' cs with
  | none => (p, String.mk [])
  | some d =>
    let sepNext : Nat :=
      match lastIdxOfChar '/' cs with
      | none => 0
      | some s => s + 1
    if sepNext ≤ d ∧ ((cs.drop sepNext).take (d - sepNext)).any (fun c => c ≠ '.') then
      (String.mk (cs.take d), String.mk (cs.drop d))
    else (p, String.mk [])

/-- Whether a string starts with a slash (used by `os.path.join`). -/
def headIsSlash (s : String) : Bool :=
  match s.data with
  | '/' :: _ => true
  | _ => false

/-- Whether a string ends with a slash (used by `os.path.join`). -/
def lastIsSlash (s : String) : Bool :=
  match s.data.getLast? with
  | some '/' => true
  | _ => false

/-- Python `os.path.join` for two components on a posix path separator. -/
def joinPath (dir file : String) : String :=
  if headIsSlash file then file
  else if dir = String.mk [] then file
  else if lastIsSlash dir then dir ++ file
  else dir ++ ("/") ++ file

/-- The `SUPPORTED_FORMATS` tuple of `BatchImageProcessor`. -/
def SUPPORTED_FORMATS : List String :=
  [".jpg", ".jpeg", ".png", ".gif", ".bmp", ".webp", ".tiff"]

/-- `BatchImageProcessor._is_supported_format`:
`filename.lower().endswith(self.SUPPORTED_FORMATS)`. -/
def _is_supported_format (filename : String) : Bool :=
  SUPPORTED_FORMATS.any (fun ext => ext.data.isSuffixOf (pyLower filename).data)

/-- One directory entry of the input folder: its base name, whether it is
a subdirectory, and the outcome `PIL.Image.open` would produce on it
(`error` for corrupt files and for directories, `ok` with the decoded
bitmap otherwise).  This models the external filesystem state. -/
structure Entry where
  name : String
  isDir : Bool
  content : Except String Img

/-- The match performed by `glob.glob(os.path.join(folder, "*.*"))` on the
base name of one entry: the name must contain a dot, and glob skips
hidden entries (leading dot) because the pattern does not start with a
dot.  Glob matches directories as well as plain files. -/
def globStarDotStar (name : String) : Bool :=
  (match name.data with
   | [] => false
   | c :: _ => decide (c ≠ '.'))
  && name.data.contains '.'

/-- `BatchImageProcessor._get_image_files`: glob the folder with pattern
`*.*`, then keep the entries passing `_is_supported_format`.  The input
folder is modelled by the list of its directory entries. -/
def _get_image_files (entries : List Entry) : List Entry :=
  (entries.filter (fun e => globStarDotStar e.name)).filter
    (fun e => _is_supported_format e.name)

/-- The keyword-argument bag (`**kwargs`) of `process_images`: every key a
caller may pass, absent keys being `none`. -/
structure Kwargs where
  width : Option ℤ := none
  height : Option ℤ := none
  scale : Option ℚ := none
  format : Option String := none
  quality : Option ℤ := none
  text : Option String := none
  box : Option (ℤ × ℤ × ℤ × ℤ) := none
  mode : Option String := none
  degrees : Option ℤ := none
  expand : Option Bool := none
  font_size : Option ℤ := none
  opacity : Option ℚ := none
  color : Option (ℕ × ℕ × ℕ) := none
  position : Option String := none
  margin : Option ℤ := none

/-- The dictionary built by `_get_save_params`: `quality` copied when the
key is present, `compress_level` fixed to 6 for PNG output. -/
structure SaveParams where
  quality : Option ℤ := none
  compress_level : Option ℕ := none
deriving DecidableEq

/-- Behaviour of the external imaging library (Pillow) and filesystem that
the code delegates to.  Theorems quantify over an arbitrary model, so
nothing proved here depends on how the library fills pixel buffers. -/
structure PILModel where
  resample : Img → Nat → Nat → List Pixel
  rotateImg : Img → ℤ → Bool → Img
  mirror : Img → Img
  vflip : Img → Img
  cropData : Img → ℤ × ℤ × ℤ × ℤ → List Pixel
  textsize : String → ℤ → ℤ × ℤ
  renderWatermark : Img → String → ℤ × ℤ → ℕ × ℕ × ℕ → ℤ → Img
  save : Img → String → SaveParams → Except String Unit

/-- A concrete instance of the external model, used to evaluate the
development on concrete inputs. -/
def defaultPIL : PILModel where
  resample := fun _ _ _ => []
  rotateImg := fun i _ _ => i
  mirror := fun i => i
  vflip := fun i => i
  cropData := fun _ _ => []
  textsize := fun _ _ => (1, 1)
  renderWatermark := fun i _ _ _ _ => i
  save := fun _ _ _ => Except.ok ()

/-- Pillow `Image.resize` contract: a negative target dimension is an
error, otherwise the result has exactly the requested dimensions (the
pixel buffer coming from the resampling filter). -/
def pilResize (pil : PILModel) (img : Img) (w h : ℤ) : Except String Img :=
  if w < 0 ∨ h < 0 then Except.error ("bad image size")
  else Except.ok
    { width := w.toNat, height := h.toNat, mode := img.mode,
      data := pil.resample img w.toNat h.toNat }

/-- Python truthiness of an optional int (`if width:`): present and
nonzero. -/
def truthyInt : Option ℤ → Bool
  | none => false
  | some n => decide (n ≠ 0)

/-- Python truthiness of an optional float (`if scale:`): present and
nonzero. -/
def truthyRat : Option ℚ → Bool
  | none => false
  | some q => decide (q ≠ 0)

/-- `BatchImageProcessor._resize_image`: priority scale, then
width-and-height, then width alone (aspect preserving), then height
alone, else unchanged.  `int(...)` truncates; the true division of
Python floats is modelled on rationals, with the zero divisor case
surfacing as the `ZeroDivisionError` the code would raise. -/
def _resize_image (pil : PILModel) (img : Img)
    (width height : Option ℤ) (scale : Option ℚ) : Except String Img :=
  if truthyRat scale then
    pilResize pil img (pyInt ((img.width : ℚ) * scale.getD 0))
      (pyInt ((img.height : ℚ) * scale.getD 0))
  else if truthyInt width && truthyInt height then
    pilResize pil img (width.getD 0) (height.getD 0)
  else if truthyInt width then
    if img.width = 0 then Except.error ("division by zero")
    else
      pilResize pil img (width.getD 0)
        (pyInt ((img.height : ℚ) * ((width.getD 0 : ℚ) / (img.width : ℚ))))
  else if truthyInt height then
    if img.height = 0 then Except.error ("division by zero")
    else
      pilResize pil img
        (pyInt ((img.width : ℚ) * ((height.getD 0 : ℚ) / (img.height : ℚ))))
        (height.getD 0)
  else Except.ok img

/-- `BatchImageProcessor._calculate_watermark_position`: the 9-entry
anchor table, defaulting to bottom-right for unrecognized names.
Python floor division `//` is `Int.fdiv`. -/
def _calculate_watermark_position (imgSize : ℤ × ℤ) (textSize : ℤ × ℤ)
    (position : String) (margin : ℤ) : ℤ × ℤ :=
  let iw := imgSize.1
  let ih := imgSize.2
  let tw := textSize.1
  let th := textSize.2
  let p := pyLower position
  if p = ("top-left") then (margin, margin)
  else if p = ("top-center") then (Int.fdiv (iw - tw) 2, margin)
  else if p = ("top-right") then (iw - tw - margin, margin)
  else if p = ("center-left") then (margin, Int.fdiv (ih - th) 2)
  else if p = ("center") then (Int.fdiv (iw - tw) 2, Int.fdiv (ih - th) 2)
  else if p = ("center-right") then (iw - tw - margin, Int.fdiv (ih - th) 2)
  else if p = ("bottom-left") then (margin, ih - th - margin)
  else if p = ("bottom-center") then (Int.fdiv (iw - tw) 2, ih - th - margin)
  else (iw - tw - margin, ih - th - margin)

/-- `BatchImageProcessor._add_watermark`: falsy text (`None` or the empty
string) is a no-op returning the input image; otherwise the watermark
parameters are merged onto `DEFAULT_WATERMARK`, the anchor position is
computed from the measured text extent, and the rendering and alpha
compositing are delegated to the imaging library. -/
def _add_watermark (pil : PILModel) (img : Img) (text : Option String)
    (kw : Kwargs) : Img :=
  match text with
  | none => img
  | some t =>
    if t = ("") then img
    else
      let fontSize := kw.font_size.getD 30
      let ts := pil.textsize t fontSize
      let pos := _calculate_watermark_position ((img.width : ℤ), (img.height : ℤ)) ts
        (kw.position.getD ("bottom-right")) (kw.margin.getD 10)
      let alpha := pyInt (255 * kw.opacity.getD (7 / 10))
      pil.renderWatermark img t pos (kw.color.getD (255, 255, 255)) alpha

/-- `BatchImageProcessor._rotate_image`: delegated wholesale to the
imaging library. -/
def _rotate_image (pil : PILModel) (img : Img) (degrees : ℤ) (expand : Bool) : Img :=
  pil.rotateImg img degrees expand

/-- `BatchImageProcessor._flip_image`: horizontal mirrors, vertical flips,
anything else raises `ValueError`. -/
def _flip_image (pil : PILModel) (img : Img) (mode : String) : Except String Img :=
  if mode = ("horizontal") then Except.ok (pil.mirror img)
  else if mode = ("vertical") then Except.ok (pil.vflip img)
  else Except.error (("不支持的翻转模式: ") ++ mode)

/-- `BatchImageProcessor._crop_image`: a falsy box (absent) is a no-op;
otherwise the code delegates to Pillow `Image.crop`, whose contract
rejects only a right coordinate below the left one or a lower coordinate
above the upper one, and otherwise returns an image of the requested
rectangle (out-of-bounds areas padded by the library). -/
def _crop_image (pil : PILModel) (img : Img)
    (box : Option (ℤ × ℤ × ℤ × ℤ)) : Except String Img :=
  match box with
  | none => Except.ok img
  | some (l, u, r, lo) =>
    if r < l then Except.error ("Coordinate right is less than left")
    else if lo < u then Except.error ("Coordinate lower is less than upper")
    else Except.ok
      { width := (r - l).toNat, height := (lo - u).toNat, mode := img.mode,
        data := pil.cropData img (l, u, r, lo) }

/-- The fixed operation catalog of `_apply_operation`. -/
def CATALOG : List String :=
  ["resize", "convert", "compress", "watermark", "rotate", "flip", "crop"]

/-- `BatchImageProcessor._apply_operation`: dispatch one operation name,
raising `ValueError` with a message naming the operation when it is not
in the catalog.  Keyword defaults of the helper methods are applied at
the call (`degrees=0`, `expand=True`, `mode=horizontal`). -/
def _apply_operation (pil : PILModel) (img : Img) (operation : String)
    (kw : Kwargs) : Except String Img :=
  if operation = ("resize") then _resize_image pil img kw.width kw.height kw.scale
  else if operation = ("convert") then Except.ok img
  else if operation = ("compress") then Except.ok img
  else if operation = ("watermark") then Except.ok (_add_watermark pil img kw.text kw)
  else if operation = ("rotate") then
    Except.ok (_rotate_image pil img (kw.degrees.getD 0) (kw.expand.getD true))
  else if operation = ("flip") then _flip_image pil img (kw.mode.getD ("horizontal"))
  else if operation = ("crop") then _crop_image pil img kw.box
  else Except.error (("不支持的操作: ") ++ operation)

/-- `BatchImageProcessor._get_output_path`: base name of the input, with
the extension replaced by the lower-cased target format when a truthy
format is given, joined onto the output folder. -/
def _get_output_path (outputFolder : String) (inputPath : String)
    (targetFormat : Option String) : String :=
  let filename := basename inputPath
  let filename :=
    match targetFormat with
    | none => filename
    | some fmt =>
      if fmt = ("") then filename
      else (splitext filename).1 ++ (".") ++ pyLower fmt
  joinPath outputFolder filename

/-- `BatchImageProcessor._get_save_params`: copy `quality` when present,
and set `compress_level` to 6 exactly when the requested format is the
string `PNG`. -/
def _get_save_params (params : Kwargs) : SaveParams :=
  { quality := params.quality,
    compress_level := if params.format = some ("PNG") then some 6 else none }

/-- The `for op in operations` fold of `process_images`: apply each
operation to the output of the previous one, the first raised error
aborting the fold. -/
def applyOps (pil : PILModel) (kw : Kwargs) : List String → Img → Except String Img
  | [], img => Except.ok img
  | op :: rest, img =>
    match _apply_operation pil img op kw with
    | Except.ok img2 => applyOps pil kw rest img2
    | Except.error m => Except.error m

/-- The body of the `try` block of `process_images` for one file: open it,
fold the operations, derive the output path and save parameters, write
the result; the value returned on success is the base file name that the
code appends to the success list. -/
def processFile (pil : PILModel) (outputFolder : String) (ops : List String)
    (kw : Kwargs) (e : Entry) : Except String String :=
  match e.content with
  | Except.error msg => Except.error msg
  | Except.ok img0 =>
    match applyOps pil kw ops img0 with
    | Except.error msg => Except.error msg
    | Except.ok img =>
      match pil.save img (_get_output_path outputFolder e.name kw.format)
          (_get_save_params kw) with
      | Except.error msg => Except.error msg
      | Except.ok _ => Except.ok (basename e.name)

/-- The result dictionary of `process_images`. -/
structure BatchResult where
  success : List String
  failed : List (String × String)
deriving DecidableEq

/-- The per-file loop of `process_images`: every exception of the file
body is caught and recorded as a `(filename, message)` failure, success
appends the file name; order follows enumeration order. -/
def runBatch (pil : PILModel) (outputFolder : String) (ops : List String)
    (kw : Kwargs) : List Entry → BatchResult
  | [] => { success := [], failed := [] }
  | e :: rest =>
    let r := runBatch pil outputFolder ops kw rest
    match processFile pil outputFolder ops kw e with
    | Except.ok name => { success := name :: r.success, failed := r.failed }
    | Except.error msg => { success := r.success, failed := (basename e.name, msg) :: r.failed }

/-- `BatchImageProcessor.process_images`: enumerate the supported files of
the input folder and run the per-file loop.  The function is total:
every per-file exception is converted into a failure entry, so the batch
itself never raises. -/
def process_images (pil : PILModel) (inputEntries : List Entry)
    (outputFolder : String) (operations : List String) (kw : Kwargs) : BatchResult :=
  runBatch pil outputFolder operations kw (_get_image_files inputEntries)

/-- Whether opening an entry fails (a corrupt file behind a supported
extension, or a directory). -/
def decodeFails (e : Entry) : Bool :=
  match e.content with
  | Except.error _ => true
  | Except.ok _ => false

/-- Whether a fallible computation succeeded. -/
def exOk {α : Type} : Except String α → Bool
  | Except.ok _ => true
  | Except.error _ => false

/-- The crop-box validity condition asserted by the claim (spec wording):
`0 ≤ left < right ≤ width` and `0 ≤ upper < lower ≤ height`.  Stated from
the claim for comparison with the source behaviour. -/
def specCropBoxValid (img : Img) (l u r lo : ℤ) : Prop :=
  0 ≤ l ∧ l < r ∧ r ≤ (img.width : ℤ) ∧ 0 ≤ u ∧ u < lo ∧ lo ≤ (img.height : ℤ)

instance instDecSpecCropBoxValid (img : Img) (l u r lo : ℤ) :
    Decidable (specCropBoxValid img l u r lo) := by
  unfold specCropBoxValid
  infer_instance

deriving instance DecidableEq for Except

/-- The enumeration the claim describes, stated from the wording of the
spec: the directly contained plain files (not subdirectories) whose
extension matches the supported set case-insensitively. -/
def claimedImageFiles (entries : List Entry) : List Entry :=
  entries.filter (fun e => !e.isDir && _is_supported_format e.name)

/-- A hidden file with a supported extension in an otherwise valid input
folder. -/
def hiddenJpgEntry : Entry :=
  { name := (".photo.jpg"), isDir := false,
    content := Except.ok { width := 1, height := 1, mode := ("RGB"), data := [] } }

/-- A 1-by-1 bitmap used by concrete instantiations. -/
def tinyImg : Img := { width := 1, height := 1, mode := ("RGB"), data := [] }

/-- A well-formed supported file that decodes. -/
def goodJpgEntry : Entry :=
  { name := ("a.jpg"), isDir := false, content := Except.ok tinyImg }

/-- A supported file whose contents fail to decode. -/
def corruptJpgEntry : Entry :=
  { name := ("b.jpg"), isDir := false, content := Except.error ("cannot identify image file") }

/-- A well-formed supported file used to exercise an unknown operation. -/
def opTestEntry : Entry :=
  { name := ("c.jpg"), isDir := false, content := Except.ok tinyImg }


lemma pyInt_of_nonneg {q : ℚ} (h : 0 ≤ q) : pyInt q = Int.floor q := by
  unfold pyInt
  rw [if_neg (not_lt.mpr h)]

/-- Reduction of `_resize_image` in the width-only case: with a positive
width and a nonzero image width the code lands in the third guard. -/
lemma resize_width_only_eq (pil : PILModel) (img : Img) (W : ℤ)
    (hW : 0 < W) (hw : 0 < img.width) :
    _resize_image pil img (some W) none none =
      pilResize pil img W (pyInt ((img.height : ℚ) * ((W : ℚ) / (img.width : ℚ)))) := by
  have h1 : W ≠ 0 := ne_of_gt hW
  have h2 : ¬ img.width = 0 := Nat.pos_iff_ne_zero.mp hw
  simp [_resize_image, truthyRat, truthyInt, h1, h2]

/-- Claim C3: for every image of dimensions (w, h) and every positive
scale s, the resize operation with scale s succeeds and returns an image
whose dimensions are exactly (floor(w*s), floor(h*s)). -/
theorem C3_resize_scale_floor_dims (pil : PILModel) (img : Img) (s : ℚ) (hs : 0 < s) :
    ∃ out, _resize_image pil img none none (some s) = Except.ok out ∧
      (out.width : ℤ) = Int.floor ((img.width : ℚ) * s) ∧
      (out.height : ℤ) = Int.floor ((img.height : ℚ) * s) := by
  have hw0 : (0 : ℚ) ≤ (img.width : ℚ) * s :=
    mul_nonneg (Nat.cast_nonneg _) (le_of_lt hs)
  have hh0 : (0 : ℚ) ≤ (img.height : ℚ) * s :=
    mul_nonneg (Nat.cast_nonneg _) (le_of_lt hs)
  have hwf : pyInt ((img.width : ℚ) * s) = Int.floor ((img.width : ℚ) * s) :=
    pyInt_of_nonneg hw0
  have hhf : pyInt ((img.height : ℚ) * s) = Int.floor ((img.height : ℚ) * s) :=
    pyInt_of_nonneg hh0
  have hw1 : (0 : ℤ) ≤ pyInt ((img.width : ℚ) * s) := by
    rw [hwf]; exact Int.floor_nonneg.mpr hw0
  have hh1 : (0 : ℤ) ≤ pyInt ((img.height : ℚ) * s) := by
    rw [hhf]; exact Int.floor_nonneg.mpr hh0
  have ht : truthyRat (some s) = true := by
    simp [truthyRat, ne_of_gt hs]
  refine ⟨{ width := (pyInt ((img.width : ℚ) * s)).toNat,
            height := (pyInt ((img.height : ℚ) * s)).toNat,
            mode := img.mode,
            data := pil.resample img (pyInt ((img.width : ℚ) * s)).toNat
              (pyInt ((img.height : ℚ) * s)).toNat }, ?_, ?_, ?_⟩
  · simp only [_resize_image, ht, if_true, Option.getD_some, pilResize]
    rw [if_neg]
    push_neg
    exact ⟨hw1, hh1⟩
  · simpa [Int.toNat_of_nonneg hw1] using hwf
  · simpa [Int.toNat_of_nonneg hh1] using hhf

/-- Claim C3 witness: a 4-by-5 image scaled by 3/2 hits the theorem at a
concrete input. -/
theorem C3_resize_scale_floor_dims_witness :
    ∃ out, _resize_image defaultPIL
        { width := 4, height := 5, mode := ("RGB"), data := [] }
        none none (some (3 / 2)) = Except.ok out ∧
      (out.width : ℤ) = Int.floor (((4 : ℕ) : ℚ) * (3 / 2)) ∧
      (out.height : ℤ) = Int.floor (((5 : ℕ) : ℚ) * (3 / 2)) :=
  C3_resize_scale_floor_dims defaultPIL
    { width := 4, height := 5, mode := ("RGB"), data := [] } (3 / 2) (by norm_num)

/-- Claim C4 counterexample: on a 3-by-7 image, resize with width 2 only
produces height int(7 * 2/3) = 4, while the claim requires
round(7 * 2/3) = 5.  The code truncates, it does not round to nearest. -/
theorem C4_counterexample_truncation :
    (_resize_image defaultPIL { width := 3, height := 7, mode := ("RGB"), data := [] }
        (some 2) none none).map Img.height ≠
      Except.ok (Int.toNat (round ((7 : ℚ) * 2 / 3))) := by
  have h5 : round ((7 : ℚ) * 2 / 3) = 5 := by norm_num [round_eq]
  rw [resize_width_only_eq defaultPIL _ 2 (by norm_num) (by norm_num), h5]
  have hp : pyInt (((({ width := 3, height := 7, mode := ("RGB"), data := [] } : Img).height : ℚ)) *
      (((2 : ℤ) : ℚ) / (({ width := 3, height := 7, mode := ("RGB"), data := [] } : Img).width : ℚ))) = 4 := by
    show pyInt (((7 : ℕ) : ℚ) * (((2 : ℤ) : ℚ) / ((3 : ℕ) : ℚ))) = 4
    unfold pyInt
    rw [if_neg (not_lt.mpr (by norm_num))]
    push_cast
    norm_num
  rw [hp]
  simp [pilResize, Except.map]

/-- Claim C4 as amended: the resize operation invoked with only width W
(no height, no scale), W positive, on an image of positive width, returns
an image of width W and height floor(h_orig * W / w_orig) — the
aspect-preserving value truncated, not rounded to nearest. -/
theorem C4_resize_width_only_floor (pil : PILModel) (img : Img) (W : ℤ)
    (hW : 0 < W) (hw : 0 < img.width) :
    ∃ out, _resize_image pil img (some W) none none = Except.ok out ∧
      (out.width : ℤ) = W ∧
      (out.height : ℤ) = Int.floor ((img.height : ℚ) * W / (img.width : ℚ)) := by
  have hq0 : (0 : ℚ) ≤ (img.height : ℚ) * ((W : ℚ) / (img.width : ℚ)) := by
    apply mul_nonneg (Nat.cast_nonneg _)
    apply div_nonneg _ (Nat.cast_nonneg _)
    exact_mod_cast le_of_lt hW
  have hf : pyInt ((img.height : ℚ) * ((W : ℚ) / (img.width : ℚ))) =
      Int.floor ((img.height : ℚ) * ((W : ℚ) / (img.width : ℚ))) := pyInt_of_nonneg hq0
  have h1 : (0 : ℤ) ≤ pyInt ((img.height : ℚ) * ((W : ℚ) / (img.width : ℚ))) := by
    rw [hf]; exact Int.floor_nonneg.mpr hq0
  rw [resize_width_only_eq pil img W hW hw]
  unfold pilResize
  rw [if_neg (by push_neg; exact ⟨le_of_lt hW, h1⟩)]
  refine ⟨_, rfl, ?_, ?_⟩
  · simp [Int.toNat_of_nonneg (le_of_lt hW)]
  · show ((pyInt ((img.height : ℚ) * ((W : ℚ) / (img.width : ℚ)))).toNat : ℤ) = _
    rw [Int.toNat_of_nonneg h1, hf, mul_div_assoc]

/-- Claim C4 witness (amended form): a 4-by-6 image resized to width 2
yields height floor(6 * 2 / 4) = 3. -/
theorem C4_resize_width_only_floor_witness :
    ∃ out, _resize_image defaultPIL
        { width := 4, height := 6, mode := ("RGB"), data := [] }
        (some 2) none none = Except.ok out ∧
      (out.width : ℤ) = 2 ∧
      (out.height : ℤ) = Int.floor (((6 : ℕ) : ℚ) * 2 / ((4 : ℕ) : ℚ)) :=
  C4_resize_width_only_floor defaultPIL
    { width := 4, height := 6, mode := ("RGB"), data := [] } 2 (by norm_num) (by norm_num)

/-- Claim C5 counterexample: on a 4-by-4 image the box (0, 0, 0, 0)
violates the claimed requirement left < right, yet the code succeeds —
it performs no bounds validation and the library accepts the box. -/
theorem C5_counterexample_no_bounds_check :
    ¬ ((exOk (_crop_image defaultPIL
          { width := 4, height := 4, mode := ("RGB"), data := [] }
          (some (0, 0, 0, 0))) = true) ↔
       specCropBoxValid { width := 4, height := 4, mode := ("RGB"), data := [] } 0 0 0 0) := by
  decide

/-- Claim C5 as amended: an absent box is a no-op returning the image
unchanged; a given box (l, u, r, lo) succeeds exactly when l ≤ r and
u ≤ lo — the code performs no bounds validation against the image
dimensions, and the library pads out-of-range rectangles rather than
rejecting them. -/
theorem C5_crop_ordering_only (pil : PILModel) (img : Img) (l u r lo : ℤ) :
    _crop_image pil img none = Except.ok img ∧
    (exOk (_crop_image pil img (some (l, u, r, lo))) = true ↔ (l ≤ r ∧ u ≤ lo)) := by
  refine ⟨rfl, ?_⟩
  by_cases h1 : r < l
  · simp [_crop_image, exOk, h1]
  · by_cases h2 : lo < u
    · simp [_crop_image, exOk, h1, h2]
    · simp [_crop_image, exOk, h1, h2]
      omega

/-- Claim C6: watermarking with absent or empty text returns the input
image unchanged, whatever the rest of the parameter bag holds. -/
theorem C6_watermark_empty_text_noop (pil : PILModel) (img : Img) (kw : Kwargs) :
    _apply_operation pil img ("watermark") { kw with text := none } = Except.ok img ∧
    _apply_operation pil img ("watermark") { kw with text := some ("") } = Except.ok img ∧
    _add_watermark pil img none kw = img ∧
    _add_watermark pil img (some ("")) kw = img :=
  ⟨rfl, rfl, rfl, rfl⟩

/-- Claim C9: a zero value of scale, width or height is falsy in the
guards of the resize code, so it behaves exactly as an absent parameter;
in particular resize with scale 0 alone, or width 0 alone, returns the
image unchanged. -/
theorem C9_resize_zero_like_absent (pil : PILModel) (img : Img)
    (w h : Option ℤ) (s : Option ℚ) :
    _resize_image pil img (some 0) h s = _resize_image pil img none h s ∧
    _resize_image pil img w (some 0) s = _resize_image pil img w none s ∧
    _resize_image pil img w h (some 0) = _resize_image pil img w h none ∧
    _resize_image pil img none none (some 0) = Except.ok img ∧
    _resize_image pil img (some 0) none none = Except.ok img :=
  ⟨rfl, rfl, rfl, rfl, rfl⟩

/-- Claim C7: with format PNG and quality 90 in the parameter bag, the
derived save parameters hold quality 90 and the fixed PNG compression
level 6, and the derived output path is the base file name of the input
with its extension replaced by .png, placed in the output folder —
whatever the input extension was. -/
theorem C7_png_save_params_and_path (kw : Kwargs) (outputFolder inputPath : String) :
    _get_save_params { kw with format := some ("PNG"), quality := some 90 } =
      { quality := some 90, compress_level := some 6 } ∧
    _get_output_path outputFolder inputPath (some ("PNG")) =
      joinPath outputFolder ((splitext (basename inputPath)).1 ++ (".") ++ ("png")) :=
  ⟨rfl, rfl⟩

/-- Claim C8 counterexample: a hidden file named .photo.jpg is a directly
contained file with a supported extension, so the claimed enumeration
contains it, but glob with pattern *.* skips names starting with a dot,
so the code never attempts it. -/
theorem C8_counterexample_hidden_file :
    _get_image_files [hiddenJpgEntry] = [] ∧
    claimedImageFiles [hiddenJpgEntry] = [hiddenJpgEntry] ∧
    ([] : List Entry) ≠ [hiddenJpgEntry] :=
  ⟨rfl, rfl, by simp⟩

lemma filter_filter_entries (p q : Entry → Bool) (l : List Entry) :
    (l.filter q).filter p = l.filter (fun e => q e && p e) := by
  induction l with
  | nil => rfl
  | cons e rest ih =>
    cases hq : q e <;> cases hp : p e <;>
      simp [List.filter_cons, hq, hp, ih]

/-- Claim C8 as amended: the set of attempted paths is exactly the
directly contained entries — plain files and subdirectories alike —
whose name does not start with a dot, contains a dot, and ends
case-insensitively in a supported extension.  Hidden files are skipped
even when their extension matches, and a subdirectory with a matching
dotted name is enumerated (its open then fails per file) rather than
being silently skipped. -/
theorem C8_enumeration_glob_then_extension (entries : List Entry) :
    _get_image_files entries =
      entries.filter (fun e => globStarDotStar e.name && _is_supported_format e.name) := by
  unfold _get_image_files
  exact filter_filter_entries _ _ entries

lemma processFile_ok_name (pil : PILModel) (outD : String) (ops : List String)
    (kw : Kwargs) (e : Entry) (n : String)
    (h : processFile pil outD ops kw e = Except.ok n) : n = basename e.name := by
  unfold processFile at h
  split at h
  · exact Except.noConfusion h
  · split at h
    · exact Except.noConfusion h
    · split at h
      · exact Except.noConfusion h
      · injection h with h2
        exact h2.symm

lemma processFile_decode_error (pil : PILModel) (outD : String) (ops : List String)
    (kw : Kwargs) (e : Entry) (h : decodeFails e = true) :
    exOk (processFile pil outD ops kw e) = false := by
  unfold decodeFails at h
  cases hc : e.content with
  | ok i => rw [hc] at h; simp at h
  | error m => simp [processFile, hc, exOk]

lemma runBatch_append (pil : PILModel) (outD : String) (ops : List String)
    (kw : Kwargs) (l1 l2 : List Entry) :
    runBatch pil outD ops kw (l1 ++ l2) =
      { success := (runBatch pil outD ops kw l1).success ++ (runBatch pil outD ops kw l2).success,
        failed := (runBatch pil outD ops kw l1).failed ++ (runBatch pil outD ops kw l2).failed } := by
  induction l1 with
  | nil => rfl
  | cons e rest ih =>
    show runBatch pil outD ops kw (e :: (rest ++ l2)) = _
    cases hp : processFile pil outD ops kw e with
    | ok name => simp [runBatch, hp, ih]
    | error msg => simp [runBatch, hp, ih]

lemma applyOps_append (pil : PILModel) (kw : Kwargs) (l1 l2 : List String) (img : Img) :
    applyOps pil kw (l1 ++ l2) img =
      match applyOps pil kw l1 img with
      | Except.ok i => applyOps pil kw l2 i
      | Except.error m => Except.error m := by
  induction l1 generalizing img with
  | nil => rfl
  | cons op rest ih =>
    show applyOps pil kw (op :: (rest ++ l2)) img = _
    cases h : _apply_operation pil img op kw with
    | ok i => simp [applyOps, h, ih]
    | error m => simp [applyOps, h]

lemma apply_operation_unknown (pil : PILModel) (img : Img) (kw : Kwargs)
    (op : String) (h : op ∉ CATALOG) :
    _apply_operation pil img op kw = Except.error (("不支持的操作: ") ++ op) := by
  simp only [CATALOG, List.mem_cons, List.not_mem_nil, or_false, not_or] at h
  obtain ⟨h1, h2, h3, h4, h5, h6, h7⟩ := h
  rw [_apply_operation, if_neg h1, if_neg h2, if_neg h3, if_neg h4, if_neg h5,
    if_neg h6, if_neg h7]

/-- Claim C10: each enumerated supported file contributes exactly one
entry to the result — its base name in the success list or one
(filename, message) pair in the failure list, never both and never more
than one — so the lengths of the two lists sum to the number of
enumerated files, and the combined names are a permutation of the
enumerated base names. -/
theorem C10_one_entry_per_file (pil : PILModel) (entries : List Entry)
    (outputFolder : String) (ops : List String) (kw : Kwargs) :
    (process_images pil entries outputFolder ops kw).success.length +
        (process_images pil entries outputFolder ops kw).failed.length =
      (_get_image_files entries).length ∧
    ((process_images pil entries outputFolder ops kw).success ++
        (process_images pil entries outputFolder ops kw).failed.map Prod.fst).Perm
      ((_get_image_files entries).map (fun e => basename e.name)) := by
  unfold process_images
  generalize _get_image_files entries = l
  induction l with
  | nil => simp [runBatch]
  | cons e rest ih =>
    cases hp : processFile pil outputFolder ops kw e with
    | ok name =>
      have hn : name = basename e.name := processFile_ok_name _ _ _ _ _ _ hp
      simp only [runBatch, hp, List.length_cons, List.map_cons, List.cons_append]
      constructor
      · have h1 := ih.1
        omega
      · rw [hn]
        exact (ih.2).cons _
    | error msg =>
      simp only [runBatch, hp, List.length_cons, List.map_cons]
      constructor
      · have h1 := ih.1
        omega
      · exact List.perm_middle.trans ((ih.2).cons _)

/-- Claim C1: over a directory whose enumerated supported files either
fail to decode (K of them) or process cleanly, the batch returns exactly
N - K successes and K (filename, message) failures; the batch function
is total, so the call itself never raises — every per-file error is
converted into a failure entry. -/
theorem C1_decode_failures_isolated (pil : PILModel) (entries : List Entry)
    (outputFolder : String) (ops : List String) (kw : Kwargs)
    (h : ∀ e ∈ _get_image_files entries, decodeFails e = true ∨
      exOk (processFile pil outputFolder ops kw e) = true) :
    (process_images pil entries outputFolder ops kw).success.length =
        (_get_image_files entries).length -
          List.countP decodeFails (_get_image_files entries) ∧
    (process_images pil entries outputFolder ops kw).failed.length =
      List.countP decodeFails (_get_image_files entries) := by
  unfold process_images
  revert h
  generalize _get_image_files entries = l
  intro h
  induction l with
  | nil => simp [runBatch]
  | cons e rest ih =>
    have hrest := ih (fun x hx => h x (List.mem_cons_of_mem _ hx))
    have he := h e (List.mem_cons_self _ _)
    have hcount : List.countP decodeFails rest ≤ rest.length := List.countP_le_length _
    cases hp : processFile pil outputFolder ops kw e with
    | ok name =>
      have hd : decodeFails e = false := by
        cases hdf : decodeFails e
        · rfl
        · have hbad := processFile_decode_error pil outputFolder ops kw e hdf
          rw [hp] at hbad
          simp [exOk] at hbad
      simp only [runBatch, hp, List.length_cons, List.countP_cons, hd]
      constructor
      · have h1 := hrest.1
        simp only [Bool.false_eq_true, if_false, Nat.add_zero]
        omega
      · have h2 := hrest.2
        simp only [Bool.false_eq_true, if_false, Nat.add_zero]
        omega
    | error msg =>
      have hd : decodeFails e = true := by
        cases he with
        | inl h1 => exact h1
        | inr h2 =>
          rw [hp] at h2
          simp [exOk] at h2
      simp only [runBatch, hp, List.length_cons, List.countP_cons, hd, if_true]
      constructor
      · have h1 := hrest.1
        omega
      · have h2 := hrest.2
        omega

/-- Claim C1 witness: a folder with one decodable file and one corrupt
file, processed with an empty operation list, yields one success and one
failure. -/
theorem C1_decode_failures_isolated_witness :
    (process_images defaultPIL [goodJpgEntry, corruptJpgEntry] ("out") [] {}).success.length =
        (_get_image_files [goodJpgEntry, corruptJpgEntry]).length -
          List.countP decodeFails (_get_image_files [goodJpgEntry, corruptJpgEntry]) ∧
    (process_images defaultPIL [goodJpgEntry, corruptJpgEntry] ("out") [] {}).failed.length =
      List.countP decodeFails (_get_image_files [goodJpgEntry, corruptJpgEntry]) :=
  C1_decode_failures_isolated defaultPIL [goodJpgEntry, corruptJpgEntry] ("out") [] {} (by decide)

/-- Claim C2: when the operation sequence holds a name outside the
catalog, any enumerated file that decodes and survives the operations
before it is recorded as a failure whose message names the unsupported
operation, and every other file of the folder has exactly the outcome it
would have in the batch without that file. -/
theorem C2_unknown_operation_isolated (pil : PILModel) (kw : Kwargs)
    (outputFolder : String) (d1 d2 : List Entry) (f : Entry)
    (pre post : List String) (badop : String)
    (hglob : globStarDotStar f.name = true)
    (hsupp : _is_supported_format f.name = true)
    (hbad : badop ∉ CATALOG)
    (i0 : Img) (hdecode : f.content = Except.ok i0)
    (i1 : Img) (hpre : applyOps pil kw pre i0 = Except.ok i1) :
    process_images pil (d1 ++ f :: d2) outputFolder (pre ++ badop :: post) kw =
      { success :=
          (process_images pil d1 outputFolder (pre ++ badop :: post) kw).success ++
          (process_images pil d2 outputFolder (pre ++ badop :: post) kw).success,
        failed :=
          (process_images pil d1 outputFolder (pre ++ badop :: post) kw).failed ++
          (basename f.name, ("不支持的操作: ") ++ badop) ::
            (process_images pil d2 outputFolder (pre ++ badop :: post) kw).failed } := by
  have hop : _apply_operation pil i1 badop kw = Except.error (("不支持的操作: ") ++ badop) :=
    apply_operation_unknown pil i1 kw badop hbad
  have hfold : applyOps pil kw (pre ++ badop :: post) i0 =
      Except.error (("不支持的操作: ") ++ badop) := by
    rw [applyOps_append, hpre]
    simp [applyOps, hop]
  have hproc : processFile pil outputFolder (pre ++ badop :: post) kw f =
      Except.error (("不支持的操作: ") ++ badop) := by
    simp [processFile, hdecode, hfold]
  have hfiles : _get_image_files (d1 ++ f :: d2) =
      _get_image_files d1 ++ f :: _get_image_files d2 := by
    simp [_get_image_files, List.filter_append, List.filter_cons, hglob, hsupp]
  unfold process_images
  rw [hfiles, runBatch_append]
  simp [runBatch, hproc]

/-- Claim C2 witness: a one-file folder processed with the unknown
operation name sharpen records that file as the single failure, with the
message naming the operation. -/
theorem C2_unknown_operation_isolated_witness :
    process_images defaultPIL [opTestEntry] ("out") [("sharpen")] {} =
      { success := [], failed := [(("c.jpg"), ("不支持的操作: sharpen"))] } :=
  C2_unknown_operation_isolated defaultPIL {} ("out") [] [] opTestEntry [] [] ("sharpen")
    rfl rfl (by decide) tinyImg rfl tinyImg rfl
